import Mathlib

/-!
Shallow embedding of the CLI startup code of `cli-support-js`
(`src/lib/cli-application.js`): the configuration object, the
`main()` dispatcher, the `start()` top-level error wrapper, and the
argument-splitting logic, together with theorems about the frozen
claims on the specification.

The option parser and command resolver live in `lib/cli-options.js`,
which is not among the sources; where a claim needs them they are
modelled from the spec (see `parseOptionsModel`) and `main` is
parameterised over them (`MainHooks`), so that every theorem about
`main` quantifies over all possible behaviours of the missing layer.

Log messages below the default `warn` threshold (`log.trace`,
`log.debug`, `log.verbose`) go to the external log sink that the spec
scopes out (§6); they are not part of the observable event stream
modelled here.  `console.log`, `console.error`, `log.error` and the
help renderer are modelled as events.
-/

/-- The configuration object (`context.config`).  In JavaScript it starts
as `{}`; absent properties are modelled by the defaults below
(`false` for the flags, `none` for optional values, `""` for the
not-yet-set log level). -/
structure CliConfig where
  logLevel : String := ""
  isInteractive : Bool := false
  interactiveServerPort : Option Nat := none
  isVersion : Bool := false
  isHelp : Bool := false
  cwd : Option String := none
  invokedFromCli : Bool := false
  deriving Repr, DecidableEq

/-- `src/lib/cli-application.js` line 84. -/
def defaultLogLevel : String := "warn"

/-- `initialiseConfiguration` (lines 333-338). -/
def initialiseConfiguration (config : CliConfig) : CliConfig :=
  { config with
    isInteractive := false
    interactiveServerPort := none
    logLevel := defaultLogLevel }

/-- `doInitialiseConfiguration` (lines 349-352). -/
def doInitialiseConfiguration (config : CliConfig) : CliConfig :=
  { config with isVersion := false, isHelp := false }

/-- The configuration part of `initialiseContext` (lines 403-408):
a fresh `{}` configuration is initialised and, since a fresh object has
no `cwd`, the process working directory is copied into it. -/
def initialiseContextConfig (processCwd : String) : CliConfig :=
  let config := initialiseConfiguration {}
  if config.cwd = none then { config with cwd := some processCwd } else config

/-- A JavaScript `Error`-like object as the code observes it:
`name` distinguishes user errors (`"Error"`) from system errors,
`errno` and `exitCode` are optional extension properties. -/
structure CliError where
  name : String
  message : String
  stack : String
  errno : Option Int := none
  exitCode : Option Int := none
  deriving Repr, DecidableEq

/-- Observable output events of one invocation:
`outLine` is a `console.log` line (stdout), `errLine` is a
`console.error` line (stderr), `logError` is a `log.error` message
(error severity), `helpText` is one rendering of `this.help()`. -/
inductive OutEvent where
  | outLine (s : String)
  | errLine (s : String)
  | logError (s : String)
  | helpText
  deriving Repr, DecidableEq

/-- The result of `main()`: the returned exit code and the emitted
events, in order. -/
structure MainResult where
  exitCode : Int
  events : List OutEvent
  deriving Repr, DecidableEq

/-- JavaScript `String.prototype.toLowerCase` restricted to the ASCII
range used by the sources, written on the character list so that it
evaluates inside the kernel. -/
def jsToLower (s : String) : String := ⟨s.data.map Char.toLower⟩

/-- The whitespace characters `String.prototype.trim` removes,
restricted to the ASCII range used by the sources. -/
def isJsSpace (c : Char) : Bool :=
  c = ' ' ∨ c = '\t' ∨ c = '\n' ∨ c = '\r'

/-- JavaScript `String.prototype.trim`: drop whitespace from both ends,
written on the character list so that it evaluates inside the kernel. -/
def jsTrim (s : String) : String :=
  ⟨(((s.data.dropWhile isJsSpace).reverse.dropWhile isJsSpace).reverse : List Char)⟩

/-- Full matches of the regular expression `[a-z][a-z-]*` over a
character list: one lowercase letter followed by lowercase letters and
dashes. -/
def isCmdWordFull : List Char → Bool
  | [] => false
  | c :: rest => c.isLower && rest.all (fun d => d.isLower || d == '-')

/-- All list-of-character initial segments of a character list, used to
give the semantics of a start-anchored regex search. -/
def charInits : List Char → List (List Char)
  | [] => [[]]
  | c :: rest => [] :: (charInits rest).map (fun p => c :: p)

/-- Truthiness of the JavaScript call `s.match(/^[a-z][a-z-]*/)`
(`main()`, line 642): the regex is anchored at the start only, so the
call is truthy exactly when some initial segment of `s` is a full match
of `[a-z][a-z-]*`. -/
def jsMatchCmdWord (s : String) : Bool :=
  (charInits s.data).any isCmdWordFull

/-- Whether the first character of a string is a lowercase ASCII
letter; the observable effect of `jsMatchCmdWord` (see
`jsMatchCmdWord_eq_headIsLowerLetter`). -/
def headIsLowerLetter (s : String) : Bool :=
  match s.data with
  | [] => false
  | c :: _ => c.isLower

/-- `main()` lines 629-634: copy the arguments up to (excluding) the
first `--`, each trimmed. -/
def mainArgsOf (argv : List String) : List String :=
  (argv.takeWhile (fun a => a ≠ "--")).map jsTrim

/-- `main()` lines 639-647: isolate the leading command words; each
argument is lowercased and kept while `/^[a-z][a-z-]*/` matches it, the
first failure ends the scan. -/
def scanCommandWords : List String → List String
  | [] => []
  | arg :: rest =>
    let lowerCaseArg := jsToLower arg
    if jsMatchCmdWord lowerCaseArg then
      lowerCaseArg :: scanCommandWords rest
    else
      []

/-- The external calls `main()` makes, as parameters: the option
parser `CliOptions.parseOptions` (line 620), the command resolver
`CliOptions.findCommandClass` (line 662, returning the full command
names or throwing), and the resolved command instance body
`cmdImpl.run` (line 680, returning an exit code or throwing).  The
parser and resolver live in `lib/cli-options.js`, which is not among
the sources, so `main` is quantified over their behaviour. -/
structure MainHooks where
  parseOptions : List String → CliConfig → CliConfig
  findCommandClass : List String → Except CliError (List String)
  run : List String → List String → Except CliError Int

/-- The `catch` handler of `main()` (lines 684-702): a user error
(`name === 'Error'`) has its message logged at error severity; when it
has no `errno`, help is re-displayed and the code is 1; otherwise the
code is its `exitCode` when defined and 1 otherwise.  Any other error
has its stack printed to `console.error` and the code is 2. -/
def mainCatch (err : CliError) : MainResult :=
  if err.name = "Error" then
    if err.errno = none then
      ⟨1, [OutEvent.logError err.message, OutEvent.helpText]⟩
    else
      ⟨err.exitCode.getD 1, [OutEvent.logError err.message]⟩
  else
    ⟨2, [OutEvent.errLine err.stack]⟩

/-- `CliApplication.main` (lines 611-703): parse the options into the
configuration, short-circuit on the version flag, scan the command
words, emit help on an empty line or on a command-less help request,
otherwise resolve and run the command inside the try/catch. -/
def CliApplication.main (hooks : MainHooks) (pkgVersion : String) (config : CliConfig)
    (argv : List String) : MainResult :=
  let config2 := hooks.parseOptions argv config
  if config2.isVersion = true then
    ⟨0, [OutEvent.outLine pkgVersion]⟩
  else
    let mainArgs := mainArgsOf argv
    let cmds := scanCommandWords mainArgs
    if mainArgs.length = 0 ∨ (cmds.length = 0 ∧ config2.isHelp = true) then
      ⟨0, [OutEvent.helpText]⟩
    else
      match hooks.findCommandClass cmds with
      | Except.error err => mainCatch err
      | Except.ok fullCommands =>
        match hooks.run fullCommands (argv.drop cmds.length) with
        | Except.ok code => ⟨code, []⟩
        | Except.error err => mainCatch err

/-- The `catch` handler of `start()` (lines 137-150): a user error has
its message logged, any other error has its stack printed; the process
exit code is the error's `exitCode` when defined and 1 otherwise. -/
def startCatch (err : CliError) : Int × List OutEvent :=
  let events :=
    if err.name = "Error" then [OutEvent.logError err.message]
    else [OutEvent.errLine err.stack]
  (err.exitCode.getD 1, events)

/-- Modelled from the spec: `CliOptions.parseOptions` applies one
recognized global option token to the configuration
(`src/lib/cli-options.js` is not among the sources; spec §4.3, §6 and
the source comment `src/lib/cli-application.js` lines 75-84 list the
aliases and their effect on the log level: quiet selects `warn`, a
first verbose selects `info` and a repeated one `verbose`, debug
selects `debug` and a repeated one `trace`, silent selects `silent`;
flags apply in encounter order, last one wins).  Unrecognized tokens
leave the configuration unchanged (they are collected as remaining
tokens, not modelled here). -/
def applyGlobalOption (arg : String) (config : CliConfig) : CliConfig :=
  if arg = "-h" ∨ arg = "--help" then { config with isHelp := true }
  else if arg = "--version" then { config with isVersion := true }
  else if arg = "-s" ∨ arg = "--silent" then { config with logLevel := "silent" }
  else if arg = "-q" ∨ arg = "--quiet" then { config with logLevel := "warn" }
  else if arg = "-v" ∨ arg = "--verbose" then
    { config with logLevel :=
        if config.logLevel = "info" ∨ config.logLevel = "verbose" then "verbose"
        else "info" }
  else if arg = "-vv" then { config with logLevel := "verbose" }
  else if arg = "-d" ∨ arg = "--debug" then
    { config with logLevel :=
        if config.logLevel = "debug" ∨ config.logLevel = "trace" then "trace"
        else "debug" }
  else if arg = "-dd" ∨ arg = "--trace" then { config with logLevel := "trace" }
  else if arg = "-i" ∨ arg = "--interactive" then
    { config with isInteractive := true }
  else config

/-- Modelled from the spec: `CliOptions.parseOptions`
(`src/lib/cli-options.js` is not among the sources).  Spec §4.1/§4.3/§8:
the options region ends at the first `--` token — tokens after it are a
literal tail and must not affect the configuration; recognized global
options update the configuration in encounter order. -/
def parseOptionsModel : List String → CliConfig → CliConfig
  | [], config => config
  | arg :: rest, config =>
    if arg = "--" then config
    else parseOptionsModel rest (applyGlobalOption arg config)

/-- A freshly initialised configuration, as `doStart` and the REPL path
build one before parsing. -/
def freshConfig : CliConfig := initialiseConfiguration {}

/-- Hooks used only to instantiate universally quantified theorems at a
concrete input: the spec-modelled parser, a resolver that accepts the
scanned words and a body that returns the number of its arguments. -/
def sampleHooks : MainHooks where
  parseOptions := parseOptionsModel
  findCommandClass := fun cmds => Except.ok cmds
  run := fun _ cmdArgs => Except.ok cmdArgs.length

/-- Hooks whose command body throws a given error, used only to
instantiate universally quantified theorems at a concrete input. -/
def throwingHooks (e : CliError) : MainHooks where
  parseOptions := parseOptionsModel
  findCommandClass := fun cmds => Except.ok cmds
  run := fun _ _ => Except.error e

/-- Hooks whose resolver accepts an empty command path and whose body
returns 42, used only to instantiate universally quantified theorems at
a concrete input. -/
def emptyPathHooks : MainHooks where
  parseOptions := parseOptionsModel
  findCommandClass := fun _ => Except.ok []
  run := fun _ _ => Except.ok 42

/-- The full-match language of the scan: what the spec calls the
command-word pattern ("starts with a letter, contains only letters and
inner dashes"), on a whole (lowercased) token. -/
def specWordPattern (s : String) : Bool :=
  isCmdWordFull (jsToLower s).data

/-! ## Theorems -/

/-- The start-anchored search `s.match(/^[a-z][a-z-]*/)` is truthy
exactly when the first character of `s` is a lowercase letter: the
starred part of the regex may match the empty string, so nothing after
the first character is constrained. -/
theorem jsMatchCmdWord_eq_headIsLowerLetter (s : String) :
    jsMatchCmdWord s = headIsLowerLetter s := by
  unfold jsMatchCmdWord headIsLowerLetter
  cases hd : s.data with
  | nil => rfl
  | cons c t =>
    show (charInits (c :: t)).any isCmdWordFull = c.isLower
    rw [show charInits (c :: t) = [] :: (charInits t).map (fun p => c :: p) from
      rfl, List.any_cons, show isCmdWordFull [] = false from rfl, Bool.false_or,
      List.any_map]
    cases hc : c.isLower with
    | false =>
      simp only [List.any_eq_false]
      intro p _
      simp [Function.comp, isCmdWordFull, hc]
    | true =>
      rw [List.any_eq_true]
      refine ⟨[], ?_, ?_⟩
      · cases t <;> simp [charInits]
      · simp [Function.comp, isCmdWordFull, hc]

/-- C1: if the parsed configuration has the version flag set, `main`
returns exit code 0 and emits exactly one stdout line holding the
package version, with empty stderr and no help, whatever the command
resolver and command body do (they are never consulted). -/
theorem main_version_short_circuit (hooks : MainHooks) (pkgVersion : String)
    (config : CliConfig) (argv : List String)
    (hv : (hooks.parseOptions argv config).isVersion = true) :
    CliApplication.main hooks pkgVersion config argv = ⟨0, [OutEvent.outLine pkgVersion]⟩ := by
  simp [CliApplication.main, hv]

/-- Witness for C1: on `--version` the parsed configuration has the
version flag set and `main` prints exactly the version line with exit
code 0. -/
theorem main_version_short_circuit_witness :
    (parseOptionsModel ["--version"] freshConfig).isVersion = true ∧
    CliApplication.main sampleHooks "1.2.3" freshConfig ["--version"] =
      ⟨0, [OutEvent.outLine "1.2.3"]⟩ :=
  ⟨by decide,
    main_version_short_circuit sampleHooks "1.2.3" freshConfig ["--version"]
      (by decide)⟩

/-- Counterexample for C6: the token `x1` contains a character outside
letters and dashes, so by the claim it fails the pattern and ends the
scan — but the scan consumes it: the regex of line 642 is not anchored
at the end of the token, so a match of its leading `x` is enough. -/
theorem scanCommandWords_trailing_digit_cex :
    scanCommandWords ["x1"] = ["x1"] ∧ specWordPattern "x1" = false := by
  constructor
  · rfl
  · rfl

/-- C6 (amended): the scan consumes the maximal leading run of tokens
whose lowercased first character is an ASCII letter, lowercasing each
consumed token; the first token whose first character is not a letter
(any token starting with a dash or a digit) ends the scan, but
characters after the first one are not constrained, because the regex
`/^[a-z][a-z-]*/` is anchored only at the start and so matches any
token that begins with a letter. -/
theorem scanCommandWords_eq_takeWhile (args : List String) :
    scanCommandWords args =
      (args.takeWhile fun a => headIsLowerLetter (jsToLower a)).map jsToLower := by
  induction args with
  | nil => rfl
  | cons a rest ih =>
    simp only [scanCommandWords, List.takeWhile_cons,
      jsMatchCmdWord_eq_headIsLowerLetter]
    cases h : headIsLowerLetter (jsToLower a) <;> simp [h, ih]

/-- C10: for every error escaping `doStart()` and caught by the
`start()` wrapper, the process exit code is the error's `exitCode` when
defined and 1 otherwise — for user errors (message logged) and system
errors (stack printed) alike; in particular an error without an
`exitCode` exits with 1, never with the fixed code 2 of `main`'s
system-error branch. -/
theorem startCatch_exit_code (err : CliError) :
    (startCatch err).1 = err.exitCode.getD 1 ∧
    (startCatch err).2 =
      (if err.name = "Error" then [OutEvent.logError err.message]
       else [OutEvent.errLine err.stack]) ∧
    (startCatch { err with exitCode := none }).1 = 1 :=
  ⟨rfl, rfl, rfl⟩

/-- If `main` reaches the dispatch region (version flag clear, help
condition false) and the resolver or the command body throws `err`,
the result is that of the `catch` handler on `err`.  Shared by the
error-mapping theorems. -/
theorem main_dispatch_throw (hooks : MainHooks) (pkgVersion : String)
    (config : CliConfig) (argv : List String) (err : CliError)
    (hver : (hooks.parseOptions argv config).isVersion = false)
    (hhelp : ¬ ((mainArgsOf argv).length = 0 ∨
      ((scanCommandWords (mainArgsOf argv)).length = 0 ∧
        (hooks.parseOptions argv config).isHelp = true)))
    (hthrow :
      hooks.findCommandClass (scanCommandWords (mainArgsOf argv)) =
        Except.error err ∨
      ∃ full,
        hooks.findCommandClass (scanCommandWords (mainArgsOf argv)) =
          Except.ok full ∧
        hooks.run full (argv.drop (scanCommandWords (mainArgsOf argv)).length) =
          Except.error err) :
    CliApplication.main hooks pkgVersion config argv = mainCatch err := by
  simp only [CliApplication.main, hver, Bool.false_eq_true, if_false]
  rw [if_neg hhelp]
  rcases hthrow with hres | ⟨full, hres, hrun⟩
  · rw [hres]
  · rw [hres]
    dsimp only
    rw [hrun]

/-- Counterexample for C2: a user-triggered failure carrying the
explicit numeric code 5 on `errno` and no `exitCode`.  The code only
consults `exitCode` after finding `errno` defined, so the exit code is
1, not the carried code 5; and although no `exitCode` is attached, help
is not re-displayed either, because `errno` is defined.  Under every
reading of "explicit numeric code" the claim fails here. -/
theorem main_user_error_code_cex :
    CliApplication.main (throwingHooks ⟨"Error", "m", "", some 5, none⟩)
        "1.0.0" freshConfig ["copy"] = ⟨1, [OutEvent.logError "m"]⟩ ∧
    ¬ (1 : Int) = 5 ∧
    ¬ OutEvent.helpText ∈ [OutEvent.logError "m"] := by
  refine ⟨rfl, by decide, by decide⟩

/-- C2 (amended): for a user-triggered failure (name `"Error"`) thrown
by command resolution or by the command's `run()`, `main` logs the
message at error severity and decides on the `errno` marker, not on the
attached exit code: with `errno` undefined it re-emits help and returns
1 (ignoring any `exitCode`); with `errno` defined it returns the
error's `exitCode` when defined and 1 otherwise, without help. -/
theorem main_user_error_mapping (hooks : MainHooks) (pkgVersion : String)
    (config : CliConfig) (argv : List String) (err : CliError)
    (hname : err.name = "Error")
    (hver : (hooks.parseOptions argv config).isVersion = false)
    (hhelp : ¬ ((mainArgsOf argv).length = 0 ∨
      ((scanCommandWords (mainArgsOf argv)).length = 0 ∧
        (hooks.parseOptions argv config).isHelp = true)))
    (hthrow :
      hooks.findCommandClass (scanCommandWords (mainArgsOf argv)) =
        Except.error err ∨
      ∃ full,
        hooks.findCommandClass (scanCommandWords (mainArgsOf argv)) =
          Except.ok full ∧
        hooks.run full (argv.drop (scanCommandWords (mainArgsOf argv)).length) =
          Except.error err) :
    CliApplication.main hooks pkgVersion config argv =
      (if err.errno = none then
        ⟨1, [OutEvent.logError err.message, OutEvent.helpText]⟩
      else
        ⟨err.exitCode.getD 1, [OutEvent.logError err.message]⟩) := by
  rw [main_dispatch_throw hooks pkgVersion config argv err hver hhelp hthrow]
  simp [mainCatch, hname]

/-- Witness for C2 (amended): a user error without `errno` thrown by
the command body yields exit 1 with the message logged and help
re-displayed. -/
theorem main_user_error_mapping_witness :
    CliApplication.main (throwingHooks ⟨"Error", "boom", "", none, none⟩)
        "1.0.0" freshConfig ["copy"] =
      ⟨1, [OutEvent.logError "boom", OutEvent.helpText]⟩ := by
  have h := main_user_error_mapping
    (throwingHooks ⟨"Error", "boom", "", none, none⟩) "1.0.0" freshConfig
    ["copy"] ⟨"Error", "boom", "", none, none⟩ rfl (by decide) (by decide)
    (Or.inr ⟨["copy"], rfl, rfl⟩)
  simpa using h

/-- C3: a failure not tagged as user-triggered (name other than
`"Error"`) thrown by command resolution or by the command's `run()`
makes `main` print the full stack trace to the error stream and return
exit code 2, whatever `exitCode` the error carries, without
re-displaying help. -/
theorem main_system_error_mapping (hooks : MainHooks) (pkgVersion : String)
    (config : CliConfig) (argv : List String) (err : CliError)
    (hname : ¬ err.name = "Error")
    (hver : (hooks.parseOptions argv config).isVersion = false)
    (hhelp : ¬ ((mainArgsOf argv).length = 0 ∨
      ((scanCommandWords (mainArgsOf argv)).length = 0 ∧
        (hooks.parseOptions argv config).isHelp = true)))
    (hthrow :
      hooks.findCommandClass (scanCommandWords (mainArgsOf argv)) =
        Except.error err ∨
      ∃ full,
        hooks.findCommandClass (scanCommandWords (mainArgsOf argv)) =
          Except.ok full ∧
        hooks.run full (argv.drop (scanCommandWords (mainArgsOf argv)).length) =
          Except.error err) :
    CliApplication.main hooks pkgVersion config argv =
      ⟨2, [OutEvent.errLine err.stack]⟩ := by
  rw [main_dispatch_throw hooks pkgVersion config argv err hver hhelp hthrow]
  simp [mainCatch, hname]

/-- Witness for C3: a `TypeError` carrying `exitCode` 9 thrown by the
command body still exits with 2 and only the stack trace is printed. -/
theorem main_system_error_mapping_witness :
    CliApplication.main (throwingHooks ⟨"TypeError", "t", "trace-text", none, some 9⟩)
        "1.0.0" freshConfig ["copy"] = ⟨2, [OutEvent.errLine "trace-text"]⟩ := by
  have h := main_system_error_mapping
    (throwingHooks ⟨"TypeError", "t", "trace-text", none, some 9⟩) "1.0.0"
    freshConfig ["copy"] ⟨"TypeError", "t", "trace-text", none, some 9⟩
    (by decide) (by decide) (by decide) (Or.inr ⟨["copy"], rfl, rfl⟩)
  simpa using h

/-- Counterexample for C4: `["-x"]` has zero leading word-like tokens
(the single token starts with a dash), yet `main` does not emit help
with exit code 0: the help branch (lines 654-659) also requires the
argument list before `--` to be empty or the help flag to be set, and
neither holds, so the invocation falls through to command resolution
(here instantiated with hooks whose resolver accepts the empty path;
the help-with-exit-0 outcome is unreachable under every hook, see the
amended theorem). -/
theorem main_no_words_no_help_cex :
    scanCommandWords (mainArgsOf ["-x"]) = [] ∧
    ¬ CliApplication.main emptyPathHooks "1.0.0" freshConfig ["-x"] =
        ⟨0, [OutEvent.helpText]⟩ := by
  refine ⟨rfl, by decide⟩

/-- C4 (amended): `main` emits the help text with exit code 0 exactly
when the version flag is clear and either the argument list before the
first `--` is empty, or no command words were scanned and the parsed
help flag is set.  An input with zero word-like tokens but a non-empty
argument list and no help flag instead proceeds to command
resolution. -/
theorem main_help_zero_iff (hooks : MainHooks) (pkgVersion : String)
    (config : CliConfig) (argv : List String) :
    CliApplication.main hooks pkgVersion config argv =
        ⟨0, [OutEvent.helpText]⟩ ↔
      ((hooks.parseOptions argv config).isVersion = false ∧
        ((mainArgsOf argv).length = 0 ∨
          ((scanCommandWords (mainArgsOf argv)).length = 0 ∧
            (hooks.parseOptions argv config).isHelp = true))) := by
  unfold CliApplication.main
  dsimp only
  split_ifs with hv hh
  · simp [hv]
  · have hv' : (hooks.parseOptions argv config).isVersion = false := by
      simpa using hv
    exact iff_of_true rfl ⟨hv', hh⟩
  · refine iff_of_false ?_ (fun hc => hh hc.2)
    cases hfc : hooks.findCommandClass (scanCommandWords (mainArgsOf argv)) with
    | error e =>
      dsimp only
      unfold mainCatch
      split_ifs <;> simp
    | ok full =>
      dsimp only
      cases hr : hooks.run full (argv.drop
          (scanCommandWords (mainArgsOf argv)).length) with
      | ok code => simp
      | error e =>
        dsimp only
        unfold mainCatch
        split_ifs <;> simp

/-- The spec-modelled option parser stops at the first `--` token:
tokens of the literal tail never touch the configuration. -/
theorem parseOptionsModel_stops_at_terminator (pre tail : List String) :
    ∀ cfg : CliConfig, ¬ "--" ∈ pre →
      parseOptionsModel (pre ++ "--" :: tail) cfg = parseOptionsModel pre cfg := by
  induction pre with
  | nil =>
    intro cfg h
    simp [parseOptionsModel]
  | cons a pre ih =>
    intro cfg h
    have ha : ¬ a = "--" := fun e => h (by simp [e])
    simp only [List.cons_append, parseOptionsModel, if_neg ha]
    exact ih _ (fun hm => h (List.mem_cons_of_mem a hm))

/-- `takeWhile` of "not the terminator" keeps exactly the tokens before
the first `--`. -/
theorem takeWhile_terminator (pre tail : List String) :
    ¬ "--" ∈ pre →
      (pre ++ "--" :: tail).takeWhile (fun a => a ≠ "--") = pre := by
  induction pre with
  | nil =>
    intro h
    simp [List.takeWhile_cons]
  | cons a pre ih =>
    intro h
    have ha : ¬ a = "--" := fun e => h (by simp [e])
    rw [List.cons_append, List.takeWhile_cons, if_pos (by simpa using ha),
      ih (fun hm => h (List.mem_cons_of_mem a hm))]

/-- The copy loop of lines 629-634 keeps exactly the tokens before the
first `--`. -/
theorem mainArgsOf_append_terminator (pre tail : List String)
    (h : ¬ "--" ∈ pre) :
    mainArgsOf (pre ++ "--" :: tail) = pre.map jsTrim := by
  unfold mainArgsOf
  rw [takeWhile_terminator pre tail h]

/-- The command-word scan never consumes more tokens than it is
given. -/
theorem scanCommandWords_length_le (l : List String) :
    (scanCommandWords l).length ≤ l.length := by
  induction l with
  | nil => simp [scanCommandWords]
  | cons a rest ih =>
    simp only [scanCommandWords]
    split_ifs
    · simpa using ih
    · simp

/-- C5: with the spec-modelled option parser, for an argument vector
`pre ++ ["--"] ++ tail` (first `--` at the boundary): the parsed
configuration is the one parsed from `pre` alone, so flags such as
verbosity or version inside the tail do not change it; the command-word
scan sees only the (trimmed) tokens of `pre`; and when dispatch is
reached the command body receives everything after the consumed command
words in original order, including the `--` itself and the whole
tail. -/
theorem main_literal_tail
    (res : List String → Except CliError (List String))
    (runf : List String → List String → Except CliError Int)
    (pkgVersion : String) (cfg : CliConfig) (pre tail full : List String)
    (hnd : ¬ "--" ∈ pre)
    (hver : (parseOptionsModel (pre ++ "--" :: tail) cfg).isVersion = false)
    (hhelp : ¬ ((mainArgsOf (pre ++ "--" :: tail)).length = 0 ∨
      ((scanCommandWords (mainArgsOf (pre ++ "--" :: tail))).length = 0 ∧
        (parseOptionsModel (pre ++ "--" :: tail) cfg).isHelp = true)))
    (hres : res (scanCommandWords (pre.map jsTrim)) = Except.ok full) :
    parseOptionsModel (pre ++ "--" :: tail) cfg = parseOptionsModel pre cfg ∧
    mainArgsOf (pre ++ "--" :: tail) = pre.map jsTrim ∧
    CliApplication.main ⟨parseOptionsModel, res, runf⟩ pkgVersion cfg
        (pre ++ "--" :: tail) =
      (match runf full
          (pre.drop (scanCommandWords (pre.map jsTrim)).length ++ "--" :: tail)
        with
        | Except.ok code => ⟨code, []⟩
        | Except.error e => mainCatch e) := by
  have hargs := mainArgsOf_append_terminator pre tail hnd
  refine ⟨parseOptionsModel_stops_at_terminator pre tail cfg hnd, hargs, ?_⟩
  have hlen : (scanCommandWords (pre.map jsTrim)).length ≤ pre.length := by
    have h2 := scanCommandWords_length_le (pre.map jsTrim)
    simpa using h2
  have hdrop : (pre ++ "--" :: tail).drop
      (scanCommandWords (pre.map jsTrim)).length =
      pre.drop (scanCommandWords (pre.map jsTrim)).length ++ "--" :: tail :=
    List.drop_append_of_le_length hlen
  unfold CliApplication.main
  dsimp only
  rw [if_neg (by simp [hver]), hargs, if_neg (by rw [← hargs]; exact hhelp),
    hres, hdrop]

/-- Witness for C5: `copy -- -v --version` parses to the same
configuration as `copy` alone (log level still `warn`, version flag
clear), and the command body receives `["--", "-v", "--version"]`. -/
theorem main_literal_tail_witness :
    parseOptionsModel ["copy", "--", "-v", "--version"] freshConfig =
      parseOptionsModel ["copy"] freshConfig ∧
    (parseOptionsModel ["copy", "--", "-v", "--version"] freshConfig).logLevel
      = "warn" ∧
    (parseOptionsModel ["copy", "--", "-v", "--version"]
      freshConfig).isVersion = false ∧
    CliApplication.main
        ⟨parseOptionsModel, fun c => Except.ok c,
          fun _ cmdArgs => Except.ok (cmdArgs.length : Int)⟩
        "1.0.0" freshConfig ["copy", "--", "-v", "--version"] = ⟨3, []⟩ := by
  have h := main_literal_tail (fun c => Except.ok c)
    (fun _ cmdArgs => Except.ok (cmdArgs.length : Int)) "1.0.0" freshConfig
    ["copy"] ["-v", "--version"] ["copy"] (by decide) (by decide) (by decide)
    rfl
  exact ⟨h.1, by decide, by decide, h.2.2.trans (by rfl)⟩

/-- Once the log level has reached `verbose`, further repeated verbose
flags keep it there. -/
theorem parseOptionsModel_replicate_v_verbose (n : Nat) :
    ∀ c : CliConfig, c.logLevel = "verbose" →
      (parseOptionsModel (List.replicate n "-v") c).logLevel = "verbose" := by
  induction n with
  | zero =>
    intro c h
    simpa [parseOptionsModel] using h
  | succ n ih =>
    intro c h
    rw [List.replicate_succ]
    rw [show parseOptionsModel ("-v" :: List.replicate n "-v") c =
        parseOptionsModel (List.replicate n "-v") (applyGlobalOption "-v" c)
      from rfl]
    refine ih _ ?_
    simp [applyGlobalOption, h]

/-- C8: with the spec-modelled option parser, starting from a freshly
initialised configuration (default log level `warn`, line 84 and lines
333-338): no verbose flag leaves `warn`, one verbose flag gives `info`,
two or more give `verbose`; a debug flag gives `debug` and a doubled
one (`-d -d`, `-dd` or `--trace`) gives `trace`; a quiet flag gives
`warn` and a silent flag gives `silent`. -/
theorem logLevel_from_flags (n : Nat) :
    (parseOptionsModel (List.replicate n "-v") freshConfig).logLevel =
      (if n = 0 then "warn" else if n = 1 then "info" else "verbose") ∧
    (parseOptionsModel [] freshConfig).logLevel = "warn" ∧
    (parseOptionsModel ["-d"] freshConfig).logLevel = "debug" ∧
    (parseOptionsModel ["-d", "-d"] freshConfig).logLevel = "trace" ∧
    (parseOptionsModel ["-dd"] freshConfig).logLevel = "trace" ∧
    (parseOptionsModel ["--trace"] freshConfig).logLevel = "trace" ∧
    (parseOptionsModel ["-q"] freshConfig).logLevel = "warn" ∧
    (parseOptionsModel ["-s"] freshConfig).logLevel = "silent" := by
  refine ⟨?_, by decide, by decide, by decide, by decide, by decide,
    by decide, by decide⟩
  match n with
  | 0 => decide
  | 1 => decide
  | m + 2 =>
    rw [if_neg (by omega), if_neg (by omega)]
    rw [show List.replicate (m + 2) "-v" =
        "-v" :: "-v" :: List.replicate m "-v" from by
      rw [List.replicate_succ, List.replicate_succ]]
    rw [show parseOptionsModel ("-v" :: "-v" :: List.replicate m "-v")
          freshConfig =
        parseOptionsModel (List.replicate m "-v")
          (applyGlobalOption "-v" (applyGlobalOption "-v" freshConfig))
      from rfl]
    exact parseOptionsModel_replicate_v_verbose m _ (by decide)

/-- C9: the spec-modelled parse of an options region depends only on
the token sequence and the initial configuration — the parser is a pure
function, so two invocations over freshly initialised configurations
(as the interactive path builds them, `initialiseContext` lines
403-411) give identical results and nothing leaks between them. -/
theorem parseOptionsModel_deterministic (args : List String) (cwd : String)
    (c1 c2 : CliConfig) (h : c1 = c2) :
    parseOptionsModel args c1 = parseOptionsModel args c2 ∧
    parseOptionsModel args (initialiseContextConfig cwd) =
      parseOptionsModel args (initialiseContextConfig cwd) :=
  ⟨by rw [h], rfl⟩

/-- Witness for C9: parsing `-v -d` twice from two freshly initialised
configurations yields equal results. -/
theorem parseOptionsModel_deterministic_witness :
    parseOptionsModel ["-v", "-d"] freshConfig =
      parseOptionsModel ["-v", "-d"] freshConfig ∧
    parseOptionsModel ["-v", "-d"] (initialiseContextConfig "/tmp") =
      parseOptionsModel ["-v", "-d"] (initialiseContextConfig "/tmp") :=
  parseOptionsModel_deterministic ["-v", "-d"] "/tmp" freshConfig freshConfig
    rfl
